import Mathlib

/-!
Shallow embedding of `src/panopticon/main.py` (auchter/panopticon).

The fetch pipeline (`request_image`), the broadcast hub (`handle_new_image`,
the `IMAGE` / `CAM_ID` / `IMAGE_ID` globals), the record store (`CAMERAS`),
the stats registry (`CAMERA_STATS`) and the scheduler loop (`monitor_cameras`)
are translated into pure state-passing functions.  Network responses are
supplied by an oracle `f : Nat → Nat → Option Response` mapping a fetch
sequence number and a camera id to the response of that fetch (`none` models a
transport-level exception).  The in-place `random.shuffle` is modelled by an
oracle `sh : Nat → List Nat → List Nat` giving the shuffled order at each tick,
and the wall clock by explicit `now : Int` parameters (seconds).  Every
scheduler function additionally returns the list of camera ids it fetched, in
order, so that "resource X is never fetched" is a statement about the model.
-/

namespace Panopticon

/-- One HTTP response as consumed by `request_image`: the status code, the
headers the function reads, and the body bytes.  A `none` header field models
a missing header (a `KeyError` inside the `try` block) or, for the three date
headers, a value on which `parsedate_to_datetime` raises. -/
structure Response where
  status : Nat
  contentType : Option String
  etag : Option String
  date : Option Int
  lastModified : Option Int
  expires : Option Int
  content : List Nat
  deriving DecidableEq

/-- The `metadata` dictionary built by a successful `request_image` call:
camera id, source url, the quote-stripped ETag, and the three parsed date
headers. -/
structure Metadata where
  cam_id : Nat
  url : String
  etag : String
  date : Int
  lastModified : Int
  expires : Int
  deriving DecidableEq

/-- The broadcast hub globals `IMAGE`, `CAM_ID`, `IMAGE_ID` of the source. -/
structure BroadcastState where
  image : List Nat
  cam_id : Nat
  image_id : Nat
  deriving DecidableEq

/-- The broadcast state at process start: `IMAGE_ID = 0`, `CAM_ID = 0`, and
`IMAGE` holds the bytes of `init.jpg`. -/
def initBroadcast (img : List Nat) : BroadcastState :=
  { image := img, cam_id := 0, image_id := 0 }

/-- Model of `handle_new_image` (main.py:84-95): under the condition variable it
replaces `IMAGE` and `CAM_ID` and increments `IMAGE_ID`, in one step. -/
def handle_new_image (bs : BroadcastState) (image : List Nat) (metadata : Metadata) :
    BroadcastState :=
  { image := image, cam_id := metadata.cam_id, image_id := bs.image_id + 1 }

/-- A sequence of publishes applied to the hub, newest last. -/
def publishTrace (bs : BroadcastState) : List (List Nat × Metadata) → BroadcastState
  | [] => bs
  | (c, md) :: rest => publishTrace (handle_new_image bs c md) rest

/-- The hardcoded offline-camera ETag of main.py:60. -/
def sentinel : String := "3098b5594c26b8f0fd53420ad094f2df"

/-- Python's `s.strip(\x22)`: remove every leading and trailing double-quote
character. -/
def stripQuotes (s : String) : String :=
  String.mk (((s.data.dropWhile (fun c => c = '"')).reverse.dropWhile
    (fun c => c = '"')).reverse)

/-- Model of `request_image` (main.py:50-77).  `info` is the `CAMERA_INFO` lookup of a
camera id to its `Screenshot Address`; `resp` is the network's answer, `none`
standing for a raised transport exception.  The function returns `none`
(`Unavailable`) on every failure branch, otherwise the metadata together with
the body bytes that the optional handler of the source would receive.  (For an
id missing from `CAMERA_INFO` the source raises; all call sites use ids from
`CAMERA_INFO`, and we model the lookup failure as `none` as well.) -/
def request_image (info : Nat → Option String) (cam_id : Nat)
    (resp : Option Response) : Option (Metadata × List Nat) :=
  match info cam_id with
  | none => none
  | some url =>
    match resp with
    | none => none
    | some r =>
      if r.status ≠ 200 then none
      else
        match r.contentType with
        | none => none
        | some ct =>
          if ct ≠ "image/jpeg" then none
          else
            match r.etag with
            | none => none
            | some e =>
              if e = sentinel then none
              else
                match r.date, r.lastModified, r.expires with
                | some d, some lm, some ex =>
                  some ({ cam_id := cam_id, url := url, etag := stripQuotes e,
                          date := d, lastModified := lm, expires := ex }, r.content)
                | _, _, _ => none

/-- Model of `get_delta` (main.py:80-81): seconds from `now` to the record's `Expires`. -/
def get_delta (camera : Metadata) (now : Int) : Int :=
  camera.expires - now

/-- First-match lookup in an association list (a Python dict keyed by ints). -/
def alookup {α : Type} : List (Nat × α) → Nat → Option α
  | [], _ => none
  | (k, v) :: rest, key => if k = key then some v else alookup rest key

/-- Assignment `d[key] = v` on a Python dict: replace the entry if present, append it
otherwise. -/
def aset {α : Type} : List (Nat × α) → Nat → α → List (Nat × α)
  | [], key, v => [(key, v)]
  | (k, w) :: rest, key, v =>
    if k = key then (k, v) :: rest else (k, w) :: aset rest key v

/-- Increment `CAMERA_STATS[cam_id][hits] += 1` on the stats map (the key is present at
every call site of the source; on an absent key this model is the identity
where the source would raise). -/
def bumpHits : List (Nat × Nat) → Nat → List (Nat × Nat)
  | [], _ => []
  | (k, h) :: rest, key =>
    if k = key then (k, h + 1) :: rest else (k, h) :: bumpHits rest key

/-- Total number of hits over all stats entries. -/
def sumHits : List (Nat × Nat) → Nat
  | [] => 0
  | (_, h) :: rest => h + sumHits rest

/-- The mutable state of the monitor thread: the `CAMERAS` record store, the
`CAMERA_STATS` registry and the broadcast hub. -/
structure SchedState where
  cameras : List (Nat × Metadata)
  stats : List (Nat × Nat)
  bcast : BroadcastState
  deriving DecidableEq

/-- The bucket computation at the top of each cycle (main.py:120-127):
returns `(expired, expiring)` in iteration order. -/
def classify : List (Nat × Metadata) → Int → List Nat × List Nat
  | [], _ => ([], [])
  | (cid, cam) :: rest, now =>
    let p := classify rest now
    let delta := get_delta cam now
    if delta < 0 then (cid :: p.1, p.2)
    else if delta < 5 then (p.1, cid :: p.2)
    else p

/-- The state change of a confirmed content change (main.py:145-149): the
re-fetch's handler published to the hub, the record store takes the re-fetch's
metadata, and the camera's hit counter is incremented. -/
def commitOf (σ : SchedState) (cid : Nat) (md : Metadata) (c : List Nat) : SchedState :=
  { cameras := aset σ.cameras cid md,
    stats := bumpHits σ.stats cid,
    bcast := handle_new_image σ.bcast c md }

/-- One body iteration of the inner `for cam_id in expiring` loop
(main.py:137-150), for one camera id: look up the stored record, fetch, on a
changed fingerprint re-fetch with `handle_new_image` as handler and commit.
Returns the new state, the new fetch counter, whether a change was confirmed
(`found_one` / `break`), and the ids fetched. -/
def scanStep (info : Nat → Option String) (f : Nat → Nat → Option Response)
    (σ : SchedState) (k cid : Nat) : SchedState × Nat × Bool × List Nat :=
  match alookup σ.cameras cid with
  | none => (σ, k, false, [])
  | some cam =>
    match request_image info cid (f k cid) with
    | none => (σ, k + 1, false, [cid])
    | some (md, _) =>
      if md.etag = cam.etag then (σ, k + 1, false, [cid])
      else
        match request_image info cid (f (k + 1) cid) with
        | none => (σ, k + 2, false, [cid, cid])
        | some (md2, c2) => (commitOf σ cid md2 c2, k + 2, true, [cid, cid])

/-- One pass of the inner `for` loop over an already shuffled expiring bucket,
stopping at the first confirmed change (`break`). -/
def scanPass (info : Nat → Option String) (f : Nat → Nat → Option Response) :
    SchedState → Nat → List Nat → SchedState × Nat × Bool × List Nat
  | σ, k, [] => (σ, k, false, [])
  | σ, k, cid :: rest =>
    match scanStep info f σ k cid with
    | (σ', k', true, log) => (σ', k', true, log)
    | (σ', k', false, log) =>
      match scanPass info f σ' k' rest with
      | (σ'', k'', found, log') => (σ'', k'', found, log ++ log')

/-- The revalidation-until-change phase (main.py:132-150): while the expiring
bucket is non-empty and no change has been confirmed, sleep one second,
shuffle the bucket (`sh u` gives the order at tick `u`) and scan it.  `fuel`
bounds how many ticks of the source's potentially endless `while` loop the
model runs; the result is the state, the fetch counter, the tick counter and
the fetch log. -/
def revalidate (info : Nat → Option String) (f : Nat → Nat → Option Response)
    (sh : Nat → List Nat → List Nat) :
    SchedState → Nat → Nat → List Nat → Nat → SchedState × Nat × Nat × List Nat
  | σ, k, u, _, 0 => (σ, k, u, [])
  | σ, k, u, expiring, fuel + 1 =>
    if expiring.isEmpty then (σ, k, u, [])
    else
      match scanPass info f σ k (sh u expiring) with
      | (σ', k', true, log) => (σ', k', u + 1, log)
      | (σ', k', false, log) =>
        match revalidate info f sh σ' k' (u + 1) expiring fuel with
        | (σ'', k'', u'', log') => (σ'', k'', u'', log ++ log')

/-- One iteration of the refresh-expired loop body (main.py:152-155): fetch
once and, on success, replace the stored record unconditionally. -/
def refreshOne (info : Nat → Option String) (resp : Option Response)
    (σ : SchedState) (cid : Nat) : SchedState :=
  match request_image info cid resp with
  | some (md, _) => { σ with cameras := aset σ.cameras cid md }
  | none => σ

/-- The refresh-expired phase over the `expired` bucket. -/
def refreshExpired (info : Nat → Option String) (f : Nat → Nat → Option Response) :
    SchedState → Nat → List Nat → SchedState × Nat × List Nat
  | σ, k, [] => (σ, k, [])
  | σ, k, cid :: rest =>
    match refreshExpired info f (refreshOne info (f k cid) σ cid) (k + 1) rest with
    | (σ', k', log) => (σ', k', cid :: log)

/-- One cycle of the `while True` loop of `monitor_cameras` (main.py:119-157):
classify once at the top, run the revalidation phase on the expiring bucket,
then refresh the expired bucket computed at the top.  (The trailing 3 second
sleep has no state effect; the clock is threaded by the caller.) -/
def cycle (info : Nat → Option String) (f : Nat → Nat → Option Response)
    (sh : Nat → List Nat → List Nat) (σ : SchedState) (now : Int) (k u fuel : Nat) :
    SchedState × Nat × Nat × List Nat :=
  match revalidate info f sh σ k u (classify σ.cameras now).2 fuel with
  | (σ1, k1, u1, log1) =>
    match refreshExpired info f σ1 k1 (classify σ.cameras now).1 with
    | (σ2, k2, log2) => (σ2, k2, u1, log1 ++ log2)

/-- Running `n` cycles of the scheduler loop; `nows` gives the clock at the top of
each cycle and `fuels` the tick bound of its revalidation phase. -/
def run (info : Nat → Option String) (f : Nat → Nat → Option Response)
    (sh : Nat → List Nat → List Nat) (nows : Nat → Int) (fuels : Nat → Nat) :
    SchedState → Nat → Nat → Nat → SchedState × Nat × Nat × List Nat
  | σ, k, u, 0 => (σ, k, u, [])
  | σ, k, u, n + 1 =>
    match cycle info f sh σ (nows n) k u (fuels n) with
    | (σ1, k1, u1, log1) =>
      match run info f sh nows fuels σ1 k1 u1 n with
      | (σ2, k2, u2, log2) => (σ2, k2, u2, log1 ++ log2)

/-- One startup probe (main.py:100-111) of camera `cid` using the fetch with
sequence number `j`: fetch with the `get_height` handler (`dec` is the image
decoder measuring pixel height, `none` modelling a decode exception, which the
`try` block of `request_image` converts to an unavailable fetch), and admit
the metadata only when the decoded height equals the target resolution. -/
def probeOne (info : Nat → Option String) (f : Nat → Nat → Option Response)
    (dec : List Nat → Option Nat) (resolution cid j : Nat) : Option Metadata :=
  match request_image info cid (f j cid) with
  | none => none
  | some (md, content) =>
    match dec content with
    | none => none
    | some h => if h = resolution then some md else none

/-- The startup probing pass over the configured camera ids, consuming fetch
sequence numbers in order: builds the initial `CAMERAS` store. -/
def probeCameras (info : Nat → Option String) (f : Nat → Nat → Option Response)
    (dec : List Nat → Option Nat) (resolution : Nat) :
    List Nat → Nat → List (Nat × Metadata)
  | [], _ => []
  | cid :: rest, j =>
    match probeOne info f dec resolution cid j with
    | some md => (cid, md) :: probeCameras info f dec resolution rest (j + 1)
    | none => probeCameras info f dec resolution rest (j + 1)

/-- The `CAMERA_STATS` initialization (main.py:113-117): every admitted camera
starts with zero hits. -/
def initStats (cams : List (Nat × Metadata)) : List (Nat × Nat) :=
  cams.map (fun p => (p.1, 0))

/-- The monitor state right after startup probing and stats initialization,
before the first cycle. -/
def initState (info : Nat → Option String) (f : Nat → Nat → Option Response)
    (dec : List Nat → Option Nat) (resolution : Nat) (cfg : List Nat)
    (img : List Nat) : SchedState :=
  { cameras := probeCameras info f dec resolution cfg 0,
    stats := initStats (probeCameras info f dec resolution cfg 0),
    bcast := initBroadcast img }

/-- The upstream of a camera is unchanged: the response carries the same
status, content type, fingerprint and date headers that produced the stored
record. -/
def ResponseMatches (r : Response) (cam : Metadata) : Prop :=
  r.status = 200 ∧ r.contentType = some "image/jpeg" ∧
    ∃ e, r.etag = some e ∧ e ≠ sentinel ∧ stripQuotes e = cam.etag ∧
      r.date = some cam.date ∧ r.lastModified = some cam.lastModified ∧
      r.expires = some cam.expires

/-- Every id in a fetch log is a key of the record store. -/
def logOK (σ : SchedState) (log : List Nat) : Prop :=
  ∀ x ∈ log, (alookup σ.cameras x).isSome = true

/-- Pointwise bound between stats maps: no counter is lost or decreased. -/
def statsLE (s t : List (Nat × Nat)) : Prop :=
  ∀ c h, alookup s c = some h → ∃ h2, alookup t c = some h2 ∧ h ≤ h2

/-- The joint invariant of the monitor state: the stats registry has exactly
the record store's keys, and the hub version equals the total hit count. -/
def SchedInv (σ : SchedState) : Prop :=
  (∀ c, (alookup σ.stats c).isSome = (alookup σ.cameras c).isSome) ∧
    sumHits σ.stats = σ.bcast.image_id


/-! ### Association list lemmas -/

theorem alookup_aset {α : Type} (l : List (Nat × α)) (k : Nat) (v : α) (c : Nat) :
    alookup (aset l k v) c = if k = c then some v else alookup l c := by
  induction l with
  | nil => simp [aset, alookup]
  | cons p rest ih =>
    obtain ⟨k0, w⟩ := p
    by_cases h : k0 = k
    · subst h
      by_cases h2 : k0 = c <;> simp [aset, alookup, h2]
    · by_cases h2 : k0 = c
      · subst h2
        have hkc : ¬ k = k0 := fun hk => h hk.symm
        simp [aset, alookup, h, hkc]
      · simp [aset, alookup, h, h2, ih]

theorem aset_self {α : Type} (l : List (Nat × α)) (k : Nat) (v : α)
    (h : alookup l k = some v) : aset l k v = l := by
  induction l with
  | nil => simp [alookup] at h
  | cons p rest ih =>
    obtain ⟨k0, w⟩ := p
    by_cases h2 : k0 = k
    · subst h2
      simp [alookup] at h
      simp [aset, h]
    · simp [alookup, h2] at h
      simp [aset, h2, ih h]

theorem alookup_bumpHits (l : List (Nat × Nat)) (key c : Nat) :
    alookup (bumpHits l key) c =
      if key = c then Option.map (· + 1) (alookup l key) else alookup l c := by
  induction l with
  | nil => simp [bumpHits, alookup]
  | cons p rest ih =>
    obtain ⟨k0, h0⟩ := p
    by_cases h : k0 = key
    · subst h
      by_cases h2 : k0 = c <;> simp [bumpHits, alookup, h2]
    · by_cases h2 : k0 = c
      · subst h2
        have hkc : ¬ key = k0 := fun hk => h hk.symm
        simp [bumpHits, alookup, h, hkc]
      · simp [bumpHits, alookup, h, h2, ih]

theorem sumHits_bumpHits (l : List (Nat × Nat)) (key : Nat)
    (h : (alookup l key).isSome = true) :
    sumHits (bumpHits l key) = sumHits l + 1 := by
  induction l with
  | nil => simp [alookup] at h
  | cons p rest ih =>
    obtain ⟨k0, h0⟩ := p
    by_cases h2 : k0 = key
    · subst h2
      simp [bumpHits, sumHits]
      omega
    · simp [alookup, h2] at h
      simp [bumpHits, sumHits, h2, ih h]
      omega

theorem alookup_initStats (cams : List (Nat × Metadata)) (c : Nat) :
    alookup (initStats cams) c = Option.map (fun _ => 0) (alookup cams c) := by
  induction cams with
  | nil => simp [initStats, alookup]
  | cons p rest ih =>
    obtain ⟨k0, cam⟩ := p
    by_cases h : k0 = c <;> simp [initStats, alookup, h] <;> simpa [initStats] using ih

theorem sumHits_initStats (cams : List (Nat × Metadata)) :
    sumHits (initStats cams) = 0 := by
  induction cams with
  | nil => rfl
  | cons p rest ih => simp [initStats, sumHits] at ih ⊢; simpa [initStats] using ih

/-! ### Classification lemmas -/

theorem classify_expired_isSome (cams : List (Nat × Metadata)) (now : Int) (cid : Nat)
    (h : cid ∈ (classify cams now).1) : (alookup cams cid).isSome = true := by
  induction cams with
  | nil => simp [classify] at h
  | cons p rest ih =>
    obtain ⟨k0, cam⟩ := p
    simp only [classify] at h
    by_cases h1 : get_delta cam now < 0
    · simp only [if_pos h1] at h
      rcases List.mem_cons.mp h with h2 | h2
      · subst h2; simp [alookup]
      · by_cases h3 : k0 = cid <;> simp [alookup, h3, ih h2]
    · by_cases h4 : get_delta cam now < 5
      · simp only [if_neg h1, if_pos h4] at h
        by_cases h3 : k0 = cid <;> simp [alookup, h3, ih h]
      · simp only [if_neg h1, if_neg h4] at h
        by_cases h3 : k0 = cid <;> simp [alookup, h3, ih h]

theorem classify_expiring_isSome (cams : List (Nat × Metadata)) (now : Int) (cid : Nat)
    (h : cid ∈ (classify cams now).2) : (alookup cams cid).isSome = true := by
  induction cams with
  | nil => simp [classify] at h
  | cons p rest ih =>
    obtain ⟨k0, cam⟩ := p
    simp only [classify] at h
    by_cases h1 : get_delta cam now < 0
    · simp only [if_pos h1] at h
      by_cases h3 : k0 = cid <;> simp [alookup, h3, ih h]
    · by_cases h4 : get_delta cam now < 5
      · simp only [if_neg h1, if_pos h4] at h
        rcases List.mem_cons.mp h with h2 | h2
        · subst h2; simp [alookup]
        · by_cases h3 : k0 = cid <;> simp [alookup, h3, ih h2]
      · simp only [if_neg h1, if_neg h4] at h
        by_cases h3 : k0 = cid <;> simp [alookup, h3, ih h]

theorem classify_mem_expired (cams : List (Nat × Metadata)) (now : Int) (cid : Nat)
    (cam : Metadata) (h : alookup cams cid = some cam) (hd : get_delta cam now < 0) :
    cid ∈ (classify cams now).1 := by
  induction cams with
  | nil => simp [alookup] at h
  | cons p rest ih =>
    obtain ⟨k0, w⟩ := p
    by_cases h2 : k0 = cid
    · subst h2
      simp [alookup] at h
      subst h
      simp [classify, if_pos hd]
    · simp [alookup, h2] at h
      have hmem := ih h
      simp only [classify]
      by_cases h3 : get_delta w now < 0
      · simp [if_pos h3, hmem]
      · by_cases h4 : get_delta w now < 5 <;> simp [h3, h4, hmem]


/-! ### Commit and stats lemmas -/

theorem commitOf_cameras_isSome (σ : SchedState) (m : Nat) (md : Metadata) (c : List Nat)
    (h : (alookup σ.cameras m).isSome = true) (c0 : Nat) :
    (alookup (commitOf σ m md c).cameras c0).isSome = (alookup σ.cameras c0).isSome := by
  simp only [commitOf, alookup_aset]
  by_cases h2 : m = c0
  · subst h2; simp [h]
  · simp [h2]

theorem commitOf_stats_isSome (σ : SchedState) (m : Nat) (md : Metadata) (c : List Nat)
    (c0 : Nat) :
    (alookup (commitOf σ m md c).stats c0).isSome = (alookup σ.stats c0).isSome := by
  simp only [commitOf, alookup_bumpHits]
  by_cases h2 : m = c0
  · subst h2; simp
  · simp [h2]

theorem commitOf_inv (σ : SchedState) (m : Nat) (md : Metadata) (c : List Nat)
    (hI : SchedInv σ) (h : (alookup σ.cameras m).isSome = true) :
    SchedInv (commitOf σ m md c) := by
  obtain ⟨hkeys, hsum⟩ := hI
  constructor
  · intro c0
    rw [commitOf_stats_isSome, commitOf_cameras_isSome σ m md c h, hkeys]
  · have hstats : (alookup σ.stats m).isSome = true := by rw [hkeys]; exact h
    simp only [commitOf, handle_new_image, sumHits_bumpHits σ.stats m hstats, hsum]

theorem commitOf_statsLE (σ : SchedState) (m : Nat) (md : Metadata) (c : List Nat) :
    statsLE σ.stats (commitOf σ m md c).stats := by
  intro c0 h0 hl
  simp only [commitOf, alookup_bumpHits]
  by_cases h2 : m = c0
  · subst h2; exact ⟨h0 + 1, by simp [hl], Nat.le_succ h0⟩
  · exact ⟨h0, by simp [h2, hl], le_refl h0⟩

theorem statsLE_refl (s : List (Nat × Nat)) : statsLE s s :=
  fun c h hl => ⟨h, hl, le_refl h⟩

theorem statsLE_trans {s t w : List (Nat × Nat)} (h1 : statsLE s t) (h2 : statsLE t w) :
    statsLE s w := by
  intro c h hl
  obtain ⟨h3, hl3, hle3⟩ := h1 c h hl
  obtain ⟨h4, hl4, hle4⟩ := h2 c h3 hl3
  exact ⟨h4, hl4, le_trans hle3 hle4⟩

/-! ### Characterization of the revalidation phase -/

theorem scanStep_char (info : Nat → Option String) (f : Nat → Nat → Option Response)
    (σ : SchedState) (k cid : Nat) :
    (∃ d log, scanStep info f σ k cid = (σ, k + d, false, log) ∧ logOK σ log)
    ∨ (∃ cam md2 c2, alookup σ.cameras cid = some cam ∧
        request_image info cid (f (k + 1) cid) = some (md2, c2) ∧
        scanStep info f σ k cid = (commitOf σ cid md2 c2, k + 2, true, [cid, cid])) := by
  cases h1 : alookup σ.cameras cid with
  | none =>
    exact Or.inl ⟨0, [], by simp [scanStep, h1], by intro x hx; simp at hx⟩
  | some cam =>
    have hsome : (alookup σ.cameras cid).isSome = true := by simp [h1]
    cases h2 : request_image info cid (f k cid) with
    | none =>
      refine Or.inl ⟨1, [cid], by simp [scanStep, h1, h2], ?_⟩
      intro x hx
      simp at hx
      subst hx
      exact hsome
    | some p =>
      obtain ⟨md, c⟩ := p
      by_cases h3 : md.etag = cam.etag
      · refine Or.inl ⟨1, [cid], by simp [scanStep, h1, h2, h3], ?_⟩
        intro x hx
        simp at hx
        subst hx
        exact hsome
      · cases h4 : request_image info cid (f (k + 1) cid) with
        | none =>
          refine Or.inl ⟨2, [cid, cid], by simp [scanStep, h1, h2, h3, h4], ?_⟩
          intro x hx
          simp at hx
          subst hx
          exact hsome
        | some q =>
          obtain ⟨md2, c2⟩ := q
          have hstep : scanStep info f σ k cid =
              (commitOf σ cid md2 c2, k + 2, true, [cid, cid]) := by
            simp [scanStep, h1, h2, h3, h4]
          exact Or.inr ⟨cam, md2, c2, rfl, rfl, hstep⟩

theorem logOK_append {σ : SchedState} {l1 l2 : List Nat}
    (h1 : logOK σ l1) (h2 : logOK σ l2) : logOK σ (l1 ++ l2) := by
  intro x hx
  rcases List.mem_append.mp hx with h | h
  · exact h1 x h
  · exact h2 x h

theorem scanPass_char (info : Nat → Option String) (f : Nat → Nat → Option Response)
    (σ : SchedState) (k : Nat) (l : List Nat) :
    (∃ k2 log, scanPass info f σ k l = (σ, k2, false, log) ∧ logOK σ log)
    ∨ (∃ m md2 c2 k2 log, (alookup σ.cameras m).isSome = true ∧
        scanPass info f σ k l = (commitOf σ m md2 c2, k2, true, log) ∧ logOK σ log) := by
  induction l generalizing k with
  | nil =>
    exact Or.inl ⟨k, [], by simp [scanPass], by intro x hx; simp at hx⟩
  | cons cid rest ih =>
    rcases scanStep_char info f σ k cid with ⟨d, log0, hstep, hlog0⟩ |
      ⟨cam, md2, c2, h1, h4, hstep⟩
    · rcases ih (k + d) with ⟨k2, log1, hpass, hlog1⟩ |
        ⟨m, md2, c2, k2, log1, hm, hpass, hlog1⟩
      · refine Or.inl ⟨k2, log0 ++ log1, ?_, logOK_append hlog0 hlog1⟩
        simp [scanPass, hstep, hpass]
      · refine Or.inr ⟨m, md2, c2, k2, log0 ++ log1, hm, ?_, logOK_append hlog0 hlog1⟩
        simp [scanPass, hstep, hpass]
    · refine Or.inr ⟨cid, md2, c2, k + 2, [cid, cid], by simp [h1], ?_, ?_⟩
      · simp [scanPass, hstep]
      · intro x hx
        simp at hx
        subst hx
        simp [h1]

theorem revalidate_char (info : Nat → Option String) (f : Nat → Nat → Option Response)
    (sh : Nat → List Nat → List Nat) (σ : SchedState) (k u : Nat) (l : List Nat)
    (fuel : Nat) :
    (∃ k2 u2 log, revalidate info f sh σ k u l fuel = (σ, k2, u2, log) ∧ logOK σ log)
    ∨ (∃ m md2 c2 k2 u2 log, (alookup σ.cameras m).isSome = true ∧
        revalidate info f sh σ k u l fuel = (commitOf σ m md2 c2, k2, u2, log) ∧
        logOK σ log) := by
  induction fuel generalizing k u with
  | zero =>
    exact Or.inl ⟨k, u, [], by simp [revalidate], by intro x hx; simp at hx⟩
  | succ fuel ih =>
    by_cases hl : l.isEmpty
    · exact Or.inl ⟨k, u, [], by simp [revalidate, hl], by intro x hx; simp at hx⟩
    · rcases scanPass_char info f σ k (sh u l) with ⟨k2, log0, hpass, hlog0⟩ |
        ⟨m, md2, c2, k2, log0, hm, hpass, hlog0⟩
      · rcases ih k2 (u + 1) with ⟨k3, u3, log1, hrev, hlog1⟩ |
          ⟨m, md2, c2, k3, u3, log1, hm, hrev, hlog1⟩
        · refine Or.inl ⟨k3, u3, log0 ++ log1, ?_, logOK_append hlog0 hlog1⟩
          simp [revalidate, hl, hpass, hrev]
        · refine Or.inr ⟨m, md2, c2, k3, u3, log0 ++ log1, hm, ?_,
            logOK_append hlog0 hlog1⟩
          simp [revalidate, hl, hpass, hrev]
      · refine Or.inr ⟨m, md2, c2, k2, u + 1, log0, hm, ?_, hlog0⟩
        simp [revalidate, hl, hpass]

/-! ### Refresh-expired phase lemmas -/

theorem refreshOne_stats (info : Nat → Option String) (resp : Option Response)
    (σ : SchedState) (cid : Nat) : (refreshOne info resp σ cid).stats = σ.stats := by
  cases h : request_image info cid resp with
  | none => simp [refreshOne, h]
  | some p => obtain ⟨md, c⟩ := p; simp [refreshOne, h]

theorem refreshOne_bcast (info : Nat → Option String) (resp : Option Response)
    (σ : SchedState) (cid : Nat) : (refreshOne info resp σ cid).bcast = σ.bcast := by
  cases h : request_image info cid resp with
  | none => simp [refreshOne, h]
  | some p => obtain ⟨md, c⟩ := p; simp [refreshOne, h]

theorem refreshOne_cameras_isSome (info : Nat → Option String) (resp : Option Response)
    (σ : SchedState) (cid : Nat) (h : (alookup σ.cameras cid).isSome = true) (c0 : Nat) :
    (alookup (refreshOne info resp σ cid).cameras c0).isSome =
      (alookup σ.cameras c0).isSome := by
  cases hreq : request_image info cid resp with
  | none => simp [refreshOne, hreq]
  | some p =>
    obtain ⟨md, c⟩ := p
    simp only [refreshOne, hreq, alookup_aset]
    by_cases h2 : cid = c0
    · subst h2; simp [h]
    · simp [h2]

theorem refreshExpired_stats (info : Nat → Option String)
    (f : Nat → Nat → Option Response) (σ : SchedState) (k : Nat) (l : List Nat) :
    (refreshExpired info f σ k l).1.stats = σ.stats := by
  induction l generalizing σ k with
  | nil => simp [refreshExpired]
  | cons cid rest ih =>
    cases hre : refreshExpired info f (refreshOne info (f k cid) σ cid) (k + 1) rest with
    | mk σ' p =>
      have := ih (refreshOne info (f k cid) σ cid) (k + 1)
      rw [hre] at this
      simp only [refreshExpired, hre]
      rw [this, refreshOne_stats]

theorem refreshExpired_bcast (info : Nat → Option String)
    (f : Nat → Nat → Option Response) (σ : SchedState) (k : Nat) (l : List Nat) :
    (refreshExpired info f σ k l).1.bcast = σ.bcast := by
  induction l generalizing σ k with
  | nil => simp [refreshExpired]
  | cons cid rest ih =>
    cases hre : refreshExpired info f (refreshOne info (f k cid) σ cid) (k + 1) rest with
    | mk σ' p =>
      have := ih (refreshOne info (f k cid) σ cid) (k + 1)
      rw [hre] at this
      simp only [refreshExpired, hre]
      rw [this, refreshOne_bcast]

theorem refreshExpired_counter (info : Nat → Option String)
    (f : Nat → Nat → Option Response) (σ : SchedState) (k : Nat) (l : List Nat) :
    (refreshExpired info f σ k l).2.1 = k + l.length := by
  induction l generalizing σ k with
  | nil => simp [refreshExpired]
  | cons cid rest ih =>
    cases hre : refreshExpired info f (refreshOne info (f k cid) σ cid) (k + 1) rest with
    | mk σ' p =>
      have := ih (refreshOne info (f k cid) σ cid) (k + 1)
      rw [hre] at this
      simp only [refreshExpired, hre]
      simp at this ⊢
      omega

theorem refreshExpired_log (info : Nat → Option String)
    (f : Nat → Nat → Option Response) (σ : SchedState) (k : Nat) (l : List Nat) :
    (refreshExpired info f σ k l).2.2 = l := by
  induction l generalizing σ k with
  | nil => simp [refreshExpired]
  | cons cid rest ih =>
    cases hre : refreshExpired info f (refreshOne info (f k cid) σ cid) (k + 1) rest with
    | mk σ' p =>
      have := ih (refreshOne info (f k cid) σ cid) (k + 1)
      rw [hre] at this
      simp only [refreshExpired, hre]
      simp at this ⊢
      exact this

theorem refreshExpired_cameras_isSome (info : Nat → Option String)
    (f : Nat → Nat → Option Response) (σ : SchedState) (k : Nat) (l : List Nat)
    (h : ∀ x ∈ l, (alookup σ.cameras x).isSome = true) (c0 : Nat) :
    (alookup (refreshExpired info f σ k l).1.cameras c0).isSome =
      (alookup σ.cameras c0).isSome := by
  induction l generalizing σ k with
  | nil => simp [refreshExpired]
  | cons cid rest ih =>
    have hcid : (alookup σ.cameras cid).isSome = true := h cid (List.mem_cons_self cid rest)
    have hone := refreshOne_cameras_isSome info (f k cid) σ cid hcid
    have hrest : ∀ x ∈ rest, (alookup (refreshOne info (f k cid) σ cid).cameras x).isSome = true := by
      intro x hx
      rw [hone x]
      exact h x (List.mem_cons_of_mem cid hx)
    cases hre : refreshExpired info f (refreshOne info (f k cid) σ cid) (k + 1) rest with
    | mk σ' p =>
      have := ih (refreshOne info (f k cid) σ cid) (k + 1) hrest
      rw [hre] at this
      simp only [refreshExpired, hre]
      rw [this, hone]


/-! ### Cycle-level lemmas -/

theorem cycle_char (info : Nat → Option String) (f : Nat → Nat → Option Response)
    (sh : Nat → List Nat → List Nat) (σ : SchedState) (now : Int) (k u fuel : Nat) :
    ∃ σ1 k2 log1,
      (σ1 = σ ∨ ∃ m md2 c2, (alookup σ.cameras m).isSome = true ∧
        σ1 = commitOf σ m md2 c2) ∧ logOK σ log1 ∧
      (cycle info f sh σ now k u fuel).1 =
        (refreshExpired info f σ1 k2 (classify σ.cameras now).1).1 ∧
      (cycle info f sh σ now k u fuel).2.2.2 =
        log1 ++ (refreshExpired info f σ1 k2 (classify σ.cameras now).1).2.2 := by
  rcases revalidate_char info f sh σ k u (classify σ.cameras now).2 fuel with
    ⟨k2, u2, log1, hrev, hlog1⟩ | ⟨m, md2, c2, k2, u2, log1, hm, hrev, hlog1⟩
  · refine ⟨σ, k2, log1, Or.inl rfl, hlog1, ?_⟩
    rcases hre : refreshExpired info f σ k2 (classify σ.cameras now).1 with ⟨σ2, k3, log2⟩
    simp [cycle, hrev, hre]
  · refine ⟨commitOf σ m md2 c2, k2, log1, Or.inr ⟨m, md2, c2, hm, rfl⟩, hlog1, ?_⟩
    rcases hre : refreshExpired info f (commitOf σ m md2 c2) k2 (classify σ.cameras now).1
      with ⟨σ2, k3, log2⟩
    simp [cycle, hrev, hre]

theorem cycle_cameras_isSome (info : Nat → Option String)
    (f : Nat → Nat → Option Response) (sh : Nat → List Nat → List Nat)
    (σ : SchedState) (now : Int) (k u fuel : Nat) (c0 : Nat) :
    (alookup (cycle info f sh σ now k u fuel).1.cameras c0).isSome =
      (alookup σ.cameras c0).isSome := by
  obtain ⟨σ1, k2, log1, hσ1, hlog1, hst, hlog⟩ := cycle_char info f sh σ now k u fuel
  have hkeys1 : ∀ c, (alookup σ1.cameras c).isSome = (alookup σ.cameras c).isSome := by
    rcases hσ1 with rfl | ⟨m, md2, c2, hm, rfl⟩
    · intro c; rfl
    · exact commitOf_cameras_isSome σ m md2 c2 hm
  have hbucket : ∀ x ∈ (classify σ.cameras now).1, (alookup σ1.cameras x).isSome = true := by
    intro x hx
    rw [hkeys1 x]
    exact classify_expired_isSome σ.cameras now x hx
  rw [hst, refreshExpired_cameras_isSome info f σ1 k2 _ hbucket c0, hkeys1 c0]

theorem cycle_stats_isSome (info : Nat → Option String)
    (f : Nat → Nat → Option Response) (sh : Nat → List Nat → List Nat)
    (σ : SchedState) (now : Int) (k u fuel : Nat) (c0 : Nat) :
    (alookup (cycle info f sh σ now k u fuel).1.stats c0).isSome =
      (alookup σ.stats c0).isSome := by
  obtain ⟨σ1, k2, log1, hσ1, hlog1, hst, hlog⟩ := cycle_char info f sh σ now k u fuel
  rw [hst, refreshExpired_stats]
  rcases hσ1 with rfl | ⟨m, md2, c2, hm, rfl⟩
  · rfl
  · exact commitOf_stats_isSome σ m md2 c2 c0

theorem cycle_inv (info : Nat → Option String) (f : Nat → Nat → Option Response)
    (sh : Nat → List Nat → List Nat) (σ : SchedState) (now : Int) (k u fuel : Nat)
    (hI : SchedInv σ) : SchedInv (cycle info f sh σ now k u fuel).1 := by
  obtain ⟨σ1, k2, log1, hσ1, hlog1, hst, hlog⟩ := cycle_char info f sh σ now k u fuel
  have hI1 : SchedInv σ1 := by
    rcases hσ1 with rfl | ⟨m, md2, c2, hm, rfl⟩
    · exact hI
    · exact commitOf_inv σ m md2 c2 hI hm
  have hkeys1 : ∀ c, (alookup σ1.cameras c).isSome = (alookup σ.cameras c).isSome := by
    rcases hσ1 with rfl | ⟨m, md2, c2, hm, rfl⟩
    · intro c; rfl
    · exact commitOf_cameras_isSome σ m md2 c2 hm
  have hbucket : ∀ x ∈ (classify σ.cameras now).1, (alookup σ1.cameras x).isSome = true := by
    intro x hx
    rw [hkeys1 x]
    exact classify_expired_isSome σ.cameras now x hx
  rw [hst]
  constructor
  · intro c
    rw [refreshExpired_stats, refreshExpired_cameras_isSome info f σ1 k2 _ hbucket c]
    exact hI1.1 c
  · rw [refreshExpired_stats, refreshExpired_bcast]
    exact hI1.2

theorem cycle_statsLE (info : Nat → Option String) (f : Nat → Nat → Option Response)
    (sh : Nat → List Nat → List Nat) (σ : SchedState) (now : Int) (k u fuel : Nat) :
    statsLE σ.stats (cycle info f sh σ now k u fuel).1.stats := by
  obtain ⟨σ1, k2, log1, hσ1, hlog1, hst, hlog⟩ := cycle_char info f sh σ now k u fuel
  rw [hst, refreshExpired_stats]
  rcases hσ1 with rfl | ⟨m, md2, c2, hm, rfl⟩
  · exact statsLE_refl _
  · exact commitOf_statsLE σ m md2 c2

theorem cycle_log (info : Nat → Option String) (f : Nat → Nat → Option Response)
    (sh : Nat → List Nat → List Nat) (σ : SchedState) (now : Int) (k u fuel : Nat) :
    ∀ x ∈ (cycle info f sh σ now k u fuel).2.2.2, (alookup σ.cameras x).isSome = true := by
  obtain ⟨σ1, k2, log1, hσ1, hlog1, hst, hlog⟩ := cycle_char info f sh σ now k u fuel
  intro x hx
  rw [hlog] at hx
  rcases List.mem_append.mp hx with h | h
  · exact hlog1 x h
  · rw [refreshExpired_log] at h
    exact classify_expired_isSome σ.cameras now x h

/-! ### Run-level lemmas -/

theorem run_cameras_isSome (info : Nat → Option String)
    (f : Nat → Nat → Option Response) (sh : Nat → List Nat → List Nat)
    (nows : Nat → Int) (fuels : Nat → Nat) (σ : SchedState) (k u n : Nat) (c0 : Nat) :
    (alookup (run info f sh nows fuels σ k u n).1.cameras c0).isSome =
      (alookup σ.cameras c0).isSome := by
  induction n generalizing σ k u with
  | zero => simp [run]
  | succ n ih =>
    rcases hcy : cycle info f sh σ (nows n) k u (fuels n) with ⟨σ1, k1, u1, log1⟩
    rcases hrun : run info f sh nows fuels σ1 k1 u1 n with ⟨σ2, k2, u2, log2⟩
    have h1 := cycle_cameras_isSome info f sh σ (nows n) k u (fuels n) c0
    rw [hcy] at h1
    have h2 := ih σ1 k1 u1
    rw [hrun] at h2
    simp only [run, hcy, hrun]
    rw [h2, h1]

theorem run_stats_isSome (info : Nat → Option String)
    (f : Nat → Nat → Option Response) (sh : Nat → List Nat → List Nat)
    (nows : Nat → Int) (fuels : Nat → Nat) (σ : SchedState) (k u n : Nat) (c0 : Nat) :
    (alookup (run info f sh nows fuels σ k u n).1.stats c0).isSome =
      (alookup σ.stats c0).isSome := by
  induction n generalizing σ k u with
  | zero => simp [run]
  | succ n ih =>
    rcases hcy : cycle info f sh σ (nows n) k u (fuels n) with ⟨σ1, k1, u1, log1⟩
    rcases hrun : run info f sh nows fuels σ1 k1 u1 n with ⟨σ2, k2, u2, log2⟩
    have h1 := cycle_stats_isSome info f sh σ (nows n) k u (fuels n) c0
    rw [hcy] at h1
    have h2 := ih σ1 k1 u1
    rw [hrun] at h2
    simp only [run, hcy, hrun]
    rw [h2, h1]

theorem run_inv (info : Nat → Option String) (f : Nat → Nat → Option Response)
    (sh : Nat → List Nat → List Nat) (nows : Nat → Int) (fuels : Nat → Nat)
    (σ : SchedState) (k u n : Nat) (hI : SchedInv σ) :
    SchedInv (run info f sh nows fuels σ k u n).1 := by
  induction n generalizing σ k u with
  | zero => simpa [run] using hI
  | succ n ih =>
    rcases hcy : cycle info f sh σ (nows n) k u (fuels n) with ⟨σ1, k1, u1, log1⟩
    rcases hrun : run info f sh nows fuels σ1 k1 u1 n with ⟨σ2, k2, u2, log2⟩
    have h1 := cycle_inv info f sh σ (nows n) k u (fuels n) hI
    rw [hcy] at h1
    have h2 := ih σ1 k1 u1 h1
    rw [hrun] at h2
    simpa [run, hcy, hrun] using h2

theorem run_statsLE (info : Nat → Option String) (f : Nat → Nat → Option Response)
    (sh : Nat → List Nat → List Nat) (nows : Nat → Int) (fuels : Nat → Nat)
    (σ : SchedState) (k u n : Nat) :
    statsLE σ.stats (run info f sh nows fuels σ k u n).1.stats := by
  induction n generalizing σ k u with
  | zero => simpa [run] using statsLE_refl σ.stats
  | succ n ih =>
    rcases hcy : cycle info f sh σ (nows n) k u (fuels n) with ⟨σ1, k1, u1, log1⟩
    rcases hrun : run info f sh nows fuels σ1 k1 u1 n with ⟨σ2, k2, u2, log2⟩
    have h1 := cycle_statsLE info f sh σ (nows n) k u (fuels n)
    rw [hcy] at h1
    have h2 := ih σ1 k1 u1
    rw [hrun] at h2
    have := statsLE_trans h1 h2
    simpa [run, hcy, hrun] using this

theorem run_log (info : Nat → Option String) (f : Nat → Nat → Option Response)
    (sh : Nat → List Nat → List Nat) (nows : Nat → Int) (fuels : Nat → Nat)
    (σ : SchedState) (k u n : Nat) :
    ∀ x ∈ (run info f sh nows fuels σ k u n).2.2.2,
      (alookup σ.cameras x).isSome = true := by
  induction n generalizing σ k u with
  | zero => simp [run]
  | succ n ih =>
    rcases hcy : cycle info f sh σ (nows n) k u (fuels n) with ⟨σ1, k1, u1, log1⟩
    rcases hrun : run info f sh nows fuels σ1 k1 u1 n with ⟨σ2, k2, u2, log2⟩
    intro x hx
    simp only [run, hcy, hrun] at hx
    rcases List.mem_append.mp hx with h | h
    · have h1 := cycle_log info f sh σ (nows n) k u (fuels n)
      rw [hcy] at h1
      exact h1 x h
    · have h2 := ih σ1 k1 u1
      rw [hrun] at h2
      have h3 := h2 x h
      have h4 := cycle_cameras_isSome info f sh σ (nows n) k u (fuels n) x
      rw [hcy] at h4
      rw [h4] at h3
      exact h3


/-! ### Unchanged-upstream lemmas -/

theorem request_image_matches (info : Nat → Option String) (cid : Nat) (r : Response)
    (cam : Metadata) (hurl : info cid = some cam.url) (hcid : cam.cam_id = cid)
    (hm : ResponseMatches r cam) :
    request_image info cid (some r) = some (cam, r.content) := by
  obtain ⟨hs, hct, e, he, hne, hstrip, hd, hlm, hex⟩ := hm
  obtain ⟨cc, cu, ce, cd, clm, cex⟩ := cam
  simp only [Metadata.url] at hurl
  simp only [Metadata.cam_id] at hcid
  simp only [Metadata.etag] at hstrip
  simp only [Metadata.date] at hd
  simp only [Metadata.lastModified] at hlm
  simp only [Metadata.expires] at hex
  subst hcid
  simp [request_image, hurl, hs, hct, he, hne, hd, hlm, hex, hstrip]

theorem scanStep_unchanged (info : Nat → Option String)
    (f : Nat → Nat → Option Response) (σ : SchedState)
    (hinfo : ∀ c cam, alookup σ.cameras c = some cam →
      info c = some cam.url ∧ cam.cam_id = c)
    (hmatch : ∀ j c cam r, alookup σ.cameras c = some cam → f j c = some r →
      ResponseMatches r cam) (k cid : Nat) :
    ∃ d log, scanStep info f σ k cid = (σ, k + d, false, log) := by
  cases h1 : alookup σ.cameras cid with
  | none => exact ⟨0, [], by simp [scanStep, h1]⟩
  | some cam =>
    obtain ⟨hurl, hcid⟩ := hinfo cid cam h1
    cases hf : f k cid with
    | none =>
      refine ⟨1, [cid], ?_⟩
      simp [scanStep, h1, hf, request_image, hurl]
    | some r =>
      have hri := request_image_matches info cid r cam hurl hcid
        (hmatch k cid cam r h1 hf)
      refine ⟨1, [cid], ?_⟩
      simp [scanStep, h1, hf, hri]

theorem scanPass_unchanged (info : Nat → Option String)
    (f : Nat → Nat → Option Response) (σ : SchedState)
    (hinfo : ∀ c cam, alookup σ.cameras c = some cam →
      info c = some cam.url ∧ cam.cam_id = c)
    (hmatch : ∀ j c cam r, alookup σ.cameras c = some cam → f j c = some r →
      ResponseMatches r cam) (l : List Nat) (k : Nat) :
    ∃ k2 log, scanPass info f σ k l = (σ, k2, false, log) := by
  induction l generalizing k with
  | nil => exact ⟨k, [], by simp [scanPass]⟩
  | cons cid rest ih =>
    obtain ⟨d, log0, hstep⟩ := scanStep_unchanged info f σ hinfo hmatch k cid
    obtain ⟨k2, log1, hpass⟩ := ih (k + d)
    exact ⟨k2, log0 ++ log1, by simp [scanPass, hstep, hpass]⟩

theorem revalidate_unchanged (info : Nat → Option String)
    (f : Nat → Nat → Option Response) (sh : Nat → List Nat → List Nat)
    (σ : SchedState)
    (hinfo : ∀ c cam, alookup σ.cameras c = some cam →
      info c = some cam.url ∧ cam.cam_id = c)
    (hmatch : ∀ j c cam r, alookup σ.cameras c = some cam → f j c = some r →
      ResponseMatches r cam) (l : List Nat) (fuel k u : Nat) :
    ∃ k2 u2 log, revalidate info f sh σ k u l fuel = (σ, k2, u2, log) := by
  induction fuel generalizing k u with
  | zero => exact ⟨k, u, [], by simp [revalidate]⟩
  | succ fuel ih =>
    by_cases hl : l.isEmpty
    · exact ⟨k, u, [], by simp [revalidate, hl]⟩
    · obtain ⟨k2, log0, hpass⟩ := scanPass_unchanged info f σ hinfo hmatch (sh u l) k
      obtain ⟨k3, u3, log1, hrev⟩ := ih k2 (u + 1)
      exact ⟨k3, u3, log0 ++ log1, by simp [revalidate, hl, hpass, hrev]⟩

theorem refreshOne_unchanged (info : Nat → Option String) (resp : Option Response)
    (σ : SchedState) (cid : Nat) (cam : Metadata)
    (hcam : alookup σ.cameras cid = some cam) (hurl : info cid = some cam.url)
    (hcid : cam.cam_id = cid)
    (hr : ∀ r, resp = some r → ResponseMatches r cam) :
    refreshOne info resp σ cid = σ := by
  cases hf : resp with
  | none => simp [refreshOne, request_image, hurl]
  | some r =>
    have hri := request_image_matches info cid r cam hurl hcid (hr r hf)
    simp [refreshOne, hri, aset_self σ.cameras cid cam hcam]

theorem refreshExpired_unchanged (info : Nat → Option String)
    (f : Nat → Nat → Option Response) (σ : SchedState)
    (hinfo : ∀ c cam, alookup σ.cameras c = some cam →
      info c = some cam.url ∧ cam.cam_id = c)
    (hmatch : ∀ j c cam r, alookup σ.cameras c = some cam → f j c = some r →
      ResponseMatches r cam) (l : List Nat)
    (hl : ∀ x ∈ l, (alookup σ.cameras x).isSome = true) (k : Nat) :
    (refreshExpired info f σ k l).1 = σ := by
  induction l generalizing k with
  | nil => simp [refreshExpired]
  | cons cid rest ih =>
    have hcid0 : (alookup σ.cameras cid).isSome = true := hl cid (List.mem_cons_self cid rest)
    obtain ⟨cam, hcam⟩ := Option.isSome_iff_exists.mp hcid0
    obtain ⟨hurl, hcc⟩ := hinfo cid cam hcam
    have hone : refreshOne info (f k cid) σ cid = σ :=
      refreshOne_unchanged info (f k cid) σ cid cam hcam hurl hcc
        (fun r hr => hmatch k cid cam r hcam hr)
    have hrest : ∀ x ∈ rest, (alookup σ.cameras x).isSome = true :=
      fun x hx => hl x (List.mem_cons_of_mem cid hx)
    rcases hre : refreshExpired info f σ (k + 1) rest with ⟨σ2, k3, log2⟩
    have := ih hrest (k + 1)
    rw [hre] at this
    simp only [refreshExpired, hone, hre]
    exact this

theorem cycle_unchanged (info : Nat → Option String)
    (f : Nat → Nat → Option Response) (sh : Nat → List Nat → List Nat)
    (σ : SchedState) (now : Int) (k u fuel : Nat)
    (hinfo : ∀ c cam, alookup σ.cameras c = some cam →
      info c = some cam.url ∧ cam.cam_id = c)
    (hmatch : ∀ j c cam r, alookup σ.cameras c = some cam → f j c = some r →
      ResponseMatches r cam) :
    (cycle info f sh σ now k u fuel).1 = σ := by
  obtain ⟨k2, u2, log1, hrev⟩ := revalidate_unchanged info f sh σ hinfo hmatch
    (classify σ.cameras now).2 fuel k u
  have hexp : ∀ x ∈ (classify σ.cameras now).1, (alookup σ.cameras x).isSome = true :=
    fun x hx => classify_expired_isSome σ.cameras now x hx
  have href := refreshExpired_unchanged info f σ hinfo hmatch
    (classify σ.cameras now).1 hexp k2
  rcases hre : refreshExpired info f σ k2 (classify σ.cameras now).1 with ⟨σ2, k3, log2⟩
  rw [hre] at href
  simp only [cycle, hrev, hre]
  exact href

theorem run_unchanged (info : Nat → Option String)
    (f : Nat → Nat → Option Response) (sh : Nat → List Nat → List Nat)
    (nows : Nat → Int) (fuels : Nat → Nat) (σ : SchedState) (k u n : Nat)
    (hinfo : ∀ c cam, alookup σ.cameras c = some cam →
      info c = some cam.url ∧ cam.cam_id = c)
    (hmatch : ∀ j c cam r, alookup σ.cameras c = some cam → f j c = some r →
      ResponseMatches r cam) :
    (run info f sh nows fuels σ k u n).1 = σ := by
  induction n generalizing k u with
  | zero => simp [run]
  | succ n ih =>
    have hcy := cycle_unchanged info f sh σ (nows n) k u (fuels n) hinfo hmatch
    rcases hcyeq : cycle info f sh σ (nows n) k u (fuels n) with ⟨σ1, k1, u1, log1⟩
    rw [hcyeq] at hcy
    simp only at hcy
    rw [hcy] at hcyeq
    have hrun := ih k1 u1
    rcases hruneq : run info f sh nows fuels σ k1 u1 n with ⟨σ2, k2, u2, log2⟩
    rw [hruneq] at hrun
    simp only at hrun
    simp only [run, hcyeq, hruneq]
    exact hrun

/-! ### Startup probing lemmas -/

theorem probeCameras_excluded (info : Nat → Option String)
    (f : Nat → Nat → Option Response) (dec : List Nat → Option Nat)
    (resolution cid : Nat) (hexcl : ∀ j, probeOne info f dec resolution cid j = none)
    (cfg : List Nat) (j0 : Nat) :
    alookup (probeCameras info f dec resolution cfg j0) cid = none := by
  induction cfg generalizing j0 with
  | nil => simp [probeCameras, alookup]
  | cons c rest ih =>
    cases hp : probeOne info f dec resolution c j0 with
    | none => simp [probeCameras, hp, ih]
    | some md =>
      have hne : c ≠ cid := by
        intro h
        subst h
        rw [hexcl j0] at hp
        exact Option.noConfusion hp
      simp [probeCameras, hp, alookup, hne, ih]


/-! ### Helper lemmas for the broadcast hub -/

theorem publishTrace_image_id (bs : BroadcastState) (tr : List (List Nat × Metadata)) :
    (publishTrace bs tr).image_id = bs.image_id + tr.length := by
  induction tr generalizing bs with
  | nil => simp [publishTrace]
  | cons p rest ih =>
    obtain ⟨c, md⟩ := p
    simp [publishTrace, ih, handle_new_image]
    omega

theorem publishTrace_append (bs : BroadcastState) (tr1 tr2 : List (List Nat × Metadata)) :
    publishTrace bs (tr1 ++ tr2) = publishTrace (publishTrace bs tr1) tr2 := by
  induction tr1 generalizing bs with
  | nil => simp [publishTrace]
  | cons p rest ih =>
    obtain ⟨c, md⟩ := p
    simp [publishTrace, ih]

/-! ### Concrete fixtures used by witnesses and counterexamples -/

def infoW : Nat → Option String := fun _ => some "u"

def camW : Metadata := ⟨1, "u", "e", 0, 0, 10⟩

def σW : SchedState := ⟨[(1, camW)], [(1, 0)], ⟨[], 0, 0⟩⟩

def shW : Nat → List Nat → List Nat := fun _ l => l

def respSameW : Response := ⟨200, some "image/jpeg", some "e", some 0, some 0, some 100, []⟩

def fSameW : Nat → Nat → Option Response := fun _ _ => some respSameW

def mdNewW : Metadata := ⟨1, "u", "e", 0, 0, 100⟩

def respMatchW : Response := ⟨200, some "image/jpeg", some "e", some 0, some 0, some 10, [7]⟩

def fMatchW : Nat → Nat → Option Response := fun _ _ => some respMatchW

def respChangedW : Response := ⟨200, some "image/jpeg", some "x", some 0, some 0, some 60, [5]⟩

def fChangedW : Nat → Nat → Option Response := fun _ _ => some respChangedW

def mdXW : Metadata := ⟨1, "u", "x", 0, 0, 60⟩

def quotedSentinel : String := "\"3098b5594c26b8f0fd53420ad094f2df\""

def respQuotedW : Response := ⟨200, some "image/jpeg", some quotedSentinel, some 0, some 0, some 50, [9]⟩

def fQuotedW : Nat → Nat → Option Response := fun _ _ => some respQuotedW

def respOfflineW : Response := ⟨200, some "image/jpeg", some sentinel, some 0, some 0, some 50, [9]⟩

def respBadW : Response := ⟨404, some "image/jpeg", some "e", some 0, some 0, some 10, []⟩

def fC9W : Nat → Nat → Option Response := fun k _ => if k = 0 then some respChangedW else none

def fNoneW : Nat → Nat → Option Response := fun _ _ => none

def decW : List Nat → Option Nat := fun _ => some 1080

def fC7W : Nat → Nat → Option Response := fun _ c => if c = 1 then some respMatchW else none

/-! ### Claims -/

/-- C1, counterexample: the source (main.py:60) compares the *raw* `ETag`
header against the sentinel before stripping quotes (main.py:67).  For a
response whose ETag header is the sentinel wrapped in double quotes, the
unquoted fingerprint equals the sentinel, yet `request_image` returns a
`FetchResult` rather than `Unavailable`; fed to the revalidation scan against
a differing stored fingerprint, it even produces a broadcast and a stat
increment.  This refutes the claim that a fetch whose unquoted fingerprint
equals the sentinel always yields `Unavailable` with no state change. -/
theorem C1_counterexample :
    stripQuotes quotedSentinel = sentinel ∧
    request_image infoW 1 (some respQuotedW) =
      some ({ cam_id := 1, url := "u", etag := sentinel, date := 0,
              lastModified := 0, expires := 50 }, [9]) ∧
    (scanStep infoW fQuotedW σW 0 1).2.2.1 = true ∧
    (scanStep infoW fQuotedW σW 0 1).1.bcast.image_id = σW.bcast.image_id + 1 ∧
    alookup (scanStep infoW fQuotedW σW 0 1).1.stats 1 = some 1 := by
  decide

/-- C1 (amended): for every fetch whose *raw* `ETag` header value (before
quote stripping) equals the hardcoded sentinel
`3098b5594c26b8f0fd53420ad094f2df`, `request_image` returns `Unavailable`,
and consequently no stored record update, no broadcast publish, and no stat
increment occurs for that response: a refresh-expired iteration leaves the
state unchanged and a revalidation iteration skips the camera without
committing. -/
theorem C1_sentinel_raw_unavailable (info : Nat → Option String)
    (f : Nat → Nat → Option Response) (σ : SchedState) (k cid : Nat)
    (r : Response) (cam : Metadata) (hr : r.etag = some sentinel)
    (hf : f k cid = some r) (hcam : alookup σ.cameras cid = some cam) :
    request_image info cid (some r) = none ∧
    refreshOne info (some r) σ cid = σ ∧
    scanStep info f σ k cid = (σ, k + 1, false, [cid]) := by
  have hri : request_image info cid (some r) = none := by
    cases hi : info cid with
    | none => simp [request_image, hi]
    | some url =>
      cases hct : r.contentType with
      | none => simp [request_image, hi, hct]
      | some ct =>
        by_cases h1 : r.status = 200
        · by_cases h2 : ct = "image/jpeg"
          · simp [request_image, hi, hct, h1, h2, hr]
          · simp [request_image, hi, hct, h1, h2]
        · simp [request_image, hi, h1]
  refine ⟨hri, by simp [refreshOne, hri], ?_⟩
  simp [scanStep, hcam, hf, hri]

/-- C1 witness: the amended theorem applied to a concrete unquoted-sentinel
response. -/
theorem C1_sentinel_raw_unavailable_witness :
    request_image infoW 1 (some respOfflineW) = none ∧
    refreshOne infoW (some respOfflineW) σW 1 = σW ∧
    scanStep infoW (fun _ _ => some respOfflineW) σW 0 1 = (σW, 1, false, [1]) :=
  C1_sentinel_raw_unavailable infoW (fun _ _ => some respOfflineW) σW 0 1
    respOfflineW camW (by decide) rfl (by decide)

/-- C2, counterexample: with one camera whose stored record expires at 10 and
the clock at 8 (EXPIRING), a cycle in which the fetch succeeds with the
*same* fingerprint but a *later* horizon (100) does not update the stored
record: the fetch did happen (the cycle's log is `[1]`) and returned horizon
100, yet afterwards the stored `Expires` is still 10.  The stored horizon is
therefore older than the one returned by the most recent successful fetch,
refuting the claim for successful fetches with unchanged fingerprint. -/
theorem C2_counterexample :
    request_image infoW 1 (fSameW 0 1) = some (mdNewW, []) ∧
    mdNewW.expires = 100 ∧
    classify σW.cameras 8 = ([], [1]) ∧
    (cycle infoW fSameW shW σW 8 0 0 1).2.2.2 = [1] ∧
    (cycle infoW fSameW shW σW 8 0 0 1).1 = σW ∧
    alookup σW.cameras 1 = some camW ∧
    camW.expires = 10 := by
  decide

/-- C2 (amended): the stored record's `Expires` is the freshness horizon of
the most recent *committed* successful fetch for that resource — the startup
probe, the confirming re-fetch of a revalidation change, or an
expired-refresh fetch.  A revalidation step that does not commit (fetch
failed, fingerprint unchanged, or confirming re-fetch failed) leaves the
store unchanged even when its fetch succeeded with a newer horizon; when it
commits, the stored record is exactly the confirming re-fetch's metadata; a
refresh-expired iteration installs exactly the fetched metadata on success
and changes nothing on failure. -/
theorem C2_committed_horizon (info : Nat → Option String)
    (f : Nat → Nat → Option Response) (σ : SchedState) (k cid : Nat)
    (resp : Option Response) :
    ((scanStep info f σ k cid).2.2.1 = false → (scanStep info f σ k cid).1 = σ) ∧
    ((scanStep info f σ k cid).2.2.1 = true →
      ∃ md2 c2, request_image info cid (f (k + 1) cid) = some (md2, c2) ∧
        alookup (scanStep info f σ k cid).1.cameras cid = some md2) ∧
    (∀ md c, request_image info cid resp = some (md, c) →
      alookup (refreshOne info resp σ cid).cameras cid = some md) ∧
    (request_image info cid resp = none → refreshOne info resp σ cid = σ) := by
  refine ⟨?_, ?_, ?_, ?_⟩
  · intro hfalse
    rcases scanStep_char info f σ k cid with ⟨d, log, hstep, hlog⟩ |
      ⟨cam, md2, c2, h1, h4, hstep⟩
    · rw [hstep]
    · rw [hstep] at hfalse
      simp at hfalse
  · intro htrue
    rcases scanStep_char info f σ k cid with ⟨d, log, hstep, hlog⟩ |
      ⟨cam, md2, c2, h1, h4, hstep⟩
    · rw [hstep] at htrue
      simp at htrue
    · refine ⟨md2, c2, h4, ?_⟩
      rw [hstep]
      simp [commitOf, alookup_aset]
  · intro md c hreq
    simp [refreshOne, hreq, alookup_aset]
  · intro hreq
    simp [refreshOne, hreq]

/-- C2 witness: the amended theorem applied to a concrete refresh whose fetch
succeeds with horizon 100. -/
theorem C2_committed_horizon_witness :
    alookup (refreshOne infoW (some respSameW) σW 1).cameras 1 = some mdNewW :=
  (C2_committed_horizon infoW fSameW σW 0 1 (some respSameW)).2.2.1 mdNewW []
    (by decide)

/-- C3: in the revalidation phase, if the shuffled expiring bucket starts
with a camera whose fetch succeeds with a fingerprint differing from the
stored one and whose confirming re-fetch also succeeds, then the phase
returns immediately after committing that camera: exactly one publish occurs
(the hub version increases by exactly 1 and now carries the re-fetch's body
and source id), the camera's hit counter increases by exactly 1, its record
is replaced by the re-fetch's metadata, and no further member of the bucket
is scanned this cycle (the phase's fetch log is exactly the two fetches of
that camera). -/
theorem C3_confirmed_change_commits_once (info : Nat → Option String)
    (f : Nat → Nat → Option Response) (sh : Nat → List Nat → List Nat)
    (σ : SchedState) (k u fuel cid e0 : Nat) (rest es : List Nat)
    (cam md md2 : Metadata) (c c2 : List Nat) (h : Nat)
    (hsh : sh u (e0 :: es) = cid :: rest)
    (hcam : alookup σ.cameras cid = some cam)
    (hstat : alookup σ.stats cid = some h)
    (hf1 : request_image info cid (f k cid) = some (md, c))
    (hne : md.etag ≠ cam.etag)
    (hf2 : request_image info cid (f (k + 1) cid) = some (md2, c2)) :
    revalidate info f sh σ k u (e0 :: es) (fuel + 1) =
      (commitOf σ cid md2 c2, k + 2, u + 1, [cid, cid]) ∧
    alookup (commitOf σ cid md2 c2).cameras cid = some md2 ∧
    alookup (commitOf σ cid md2 c2).stats cid = some (h + 1) ∧
    (commitOf σ cid md2 c2).bcast.image_id = σ.bcast.image_id + 1 ∧
    (commitOf σ cid md2 c2).bcast.image = c2 ∧
    (commitOf σ cid md2 c2).bcast.cam_id = md2.cam_id := by
  have hstep : scanStep info f σ k cid =
      (commitOf σ cid md2 c2, k + 2, true, [cid, cid]) := by
    simp [scanStep, hcam, hf1, hne, hf2]
  have hpass : scanPass info f σ k (cid :: rest) =
      (commitOf σ cid md2 c2, k + 2, true, [cid, cid]) := by
    simp [scanPass, hstep]
  refine ⟨?_, ?_, ?_, rfl, rfl, rfl⟩
  · simp [revalidate, hsh, hpass]
  · simp [commitOf, alookup_aset]
  · simp [commitOf, alookup_bumpHits, hstat]

/-- C3 witness: a concrete expiring camera whose fingerprint changes. -/
theorem C3_confirmed_change_commits_once_witness :
    revalidate infoW fChangedW shW σW 0 0 [1] 1 =
      (commitOf σW 1 mdXW [5], 2, 1, [1, 1]) ∧
    alookup (commitOf σW 1 mdXW [5]).cameras 1 = some mdXW ∧
    alookup (commitOf σW 1 mdXW [5]).stats 1 = some 1 ∧
    (commitOf σW 1 mdXW [5]).bcast.image_id = σW.bcast.image_id + 1 ∧
    (commitOf σW 1 mdXW [5]).bcast.image = [5] ∧
    (commitOf σW 1 mdXW [5]).bcast.cam_id = mdXW.cam_id :=
  C3_confirmed_change_commits_once infoW fChangedW shW σW 0 0 0 1 1 [] [] camW
    mdXW mdXW [5] [5] 0 rfl (by decide) (by decide) (by decide) (by decide)
    (by decide)

/-- C4: the hub version (`IMAGE_ID`) starts at 0; every publish
(`handle_new_image`) replaces frame, source id and version together in one
step in which the version increases by exactly 1; over any sequence of
publishes the version never decreases and equals the initial version plus the
number of publishes, and after a publish the stored frame/source pair is the
one carried by that publish at the new version. -/
theorem C4_broadcast_version (img : List Nat) (bs : BroadcastState) (c : List Nat)
    (md : Metadata) (tr : List (List Nat × Metadata)) :
    (initBroadcast img).image_id = 0 ∧
    handle_new_image bs c md =
      { image := c, cam_id := md.cam_id, image_id := bs.image_id + 1 } ∧
    (publishTrace bs tr).image_id = bs.image_id + tr.length ∧
    bs.image_id ≤ (publishTrace bs tr).image_id ∧
    publishTrace bs (tr ++ [(c, md)]) =
      { image := c, cam_id := md.cam_id, image_id := bs.image_id + tr.length + 1 } := by
  refine ⟨rfl, rfl, publishTrace_image_id bs tr, ?_, ?_⟩
  · rw [publishTrace_image_id]
    omega
  · rw [publishTrace_append]
    simp [publishTrace, handle_new_image, publishTrace_image_id]

/-- C5: the refresh-expired phase fetches each member of the expired bucket
exactly once and in order (its fetch log is the bucket itself and the fetch
counter advances by the bucket's length), never touches the stats registry or
the broadcast hub; a single refresh installs exactly the fetched metadata on
success and leaves the whole state unchanged on failure; and a camera whose
record is expired and unchanged is classified EXPIRED again at any later
clock. -/
theorem C5_refresh_expired_frame (info : Nat → Option String)
    (f : Nat → Nat → Option Response) (σ σ0 : SchedState) (k cid : Nat)
    (l : List Nat) (resp : Option Response) (cams : List (Nat × Metadata))
    (cam : Metadata) (now now2 : Int) :
    (refreshExpired info f σ k l).2.2 = l ∧
    (refreshExpired info f σ k l).2.1 = k + l.length ∧
    (refreshExpired info f σ k l).1.stats = σ.stats ∧
    (refreshExpired info f σ k l).1.bcast = σ.bcast ∧
    (∀ md c, request_image info cid resp = some (md, c) →
      (refreshOne info resp σ0 cid).cameras = aset σ0.cameras cid md ∧
      alookup (refreshOne info resp σ0 cid).cameras cid = some md ∧
      (refreshOne info resp σ0 cid).stats = σ0.stats ∧
      (refreshOne info resp σ0 cid).bcast = σ0.bcast) ∧
    (request_image info cid resp = none → refreshOne info resp σ0 cid = σ0) ∧
    (alookup cams cid = some cam → get_delta cam now < 0 → now ≤ now2 →
      get_delta cam now2 < 0 ∧ cid ∈ (classify cams now2).1) := by
  refine ⟨refreshExpired_log info f σ k l, refreshExpired_counter info f σ k l,
    refreshExpired_stats info f σ k l, refreshExpired_bcast info f σ k l,
    ?_, ?_, ?_⟩
  · intro md c hreq
    refine ⟨by simp [refreshOne, hreq], ?_, by simp [refreshOne, hreq],
      by simp [refreshOne, hreq]⟩
    simp [refreshOne, hreq, alookup_aset]
  · intro hreq
    simp [refreshOne, hreq]
  · intro hcam hd hle
    have hd2 : get_delta cam now2 < 0 := by
      simp only [get_delta] at hd ⊢
      omega
    exact ⟨hd2, classify_mem_expired cams now2 cid cam hcam hd2⟩

/-- C5 witness: a concrete expired camera with unreachable upstream. -/
theorem C5_refresh_expired_frame_witness :
    refreshOne infoW none σW 1 = σW ∧
    (get_delta camW 13 < 0 ∧ 1 ∈ (classify σW.cameras 13).1) :=
  ⟨(C5_refresh_expired_frame infoW fNoneW σW σW 0 1 [1] none σW.cameras camW 12
      13).2.2.2.2.2.1 rfl,
   (C5_refresh_expired_frame infoW fNoneW σW σW 0 1 [1] none σW.cameras camW 12
      13).2.2.2.2.2.2 (by decide) (by decide) (by decide)⟩


/-- C6: if every fetch of every monitored camera returns a response carrying
the same fingerprint and headers as its stored record (upstream unchanged),
then any number of scheduler cycles — with any clock values, any tick bounds
and any shuffles — leaves the entire monitor state unchanged: in particular
the hub version, every hit counter and every stored fingerprint are
unchanged. -/
theorem C6_unchanged_upstream_idempotent (info : Nat → Option String)
    (f : Nat → Nat → Option Response) (sh : Nat → List Nat → List Nat)
    (nows : Nat → Int) (fuels : Nat → Nat) (σ : SchedState) (k u n : Nat)
    (hinfo : ∀ c cam, alookup σ.cameras c = some cam →
      info c = some cam.url ∧ cam.cam_id = c)
    (hmatch : ∀ j c cam r, alookup σ.cameras c = some cam → f j c = some r →
      ResponseMatches r cam) :
    (run info f sh nows fuels σ k u n).1 = σ ∧
    (run info f sh nows fuels σ k u n).1.bcast.image_id = σ.bcast.image_id ∧
    (run info f sh nows fuels σ k u n).1.stats = σ.stats ∧
    (∀ c cam, alookup σ.cameras c = some cam →
      alookup (run info f sh nows fuels σ k u n).1.cameras c = some cam) := by
  have h := run_unchanged info f sh nows fuels σ k u n hinfo hmatch
  exact ⟨h, by rw [h], by rw [h], fun c cam hc => by rw [h]; exact hc⟩

/-- C6 witness: one camera, upstream constantly answering with the stored
fingerprint and headers, three cycles. -/
theorem C6_unchanged_upstream_idempotent_witness :
    (run infoW fMatchW shW (fun _ => 8) (fun _ => 1) σW 0 0 3).1 = σW := by
  have hinfo : ∀ c cam, alookup σW.cameras c = some cam →
      infoW c = some cam.url ∧ cam.cam_id = c := by
    intro c cam hc
    by_cases h : (1 : Nat) = c
    · subst h
      simp [σW, alookup] at hc
      subst hc
      exact ⟨rfl, rfl⟩
    · simp [σW, alookup, h] at hc
  have hmatch : ∀ j c cam r, alookup σW.cameras c = some cam →
      fMatchW j c = some r → ResponseMatches r cam := by
    intro j c cam r hc hf
    by_cases h : (1 : Nat) = c
    · subst h
      simp [σW, alookup] at hc
      simp [fMatchW] at hf
      subst hc
      subst hf
      exact ⟨rfl, rfl, "e", rfl, by decide, by decide, rfl, rfl, rfl⟩
    · simp [σW, alookup, h] at hc
  exact (C6_unchanged_upstream_idempotent infoW fMatchW shW (fun _ => 8)
    (fun _ => 1) σW 0 0 3 hinfo hmatch).1

/-- C7: a configured camera whose startup probe never succeeds with the
target decoded height (the fetch fails or the decoded pixel height differs
from the target resolution) is excluded from the record store, gains no stats
entry, is never fetched during any number of scheduler cycles (it is absent
from the run's fetch log), and is still absent from the record store and the
stats registry afterwards. -/
theorem C7_excluded_never_fetched (info : Nat → Option String)
    (f : Nat → Nat → Option Response) (sh : Nat → List Nat → List Nat)
    (dec : List Nat → Option Nat) (nows : Nat → Int) (fuels : Nat → Nat)
    (resolution : Nat) (cfg img : List Nat) (cid k u n : Nat)
    (hexcl : ∀ j, probeOne info f dec resolution cid j = none) :
    alookup (initState info f dec resolution cfg img).cameras cid = none ∧
    alookup (initState info f dec resolution cfg img).stats cid = none ∧
    cid ∉ (run info f sh nows fuels (initState info f dec resolution cfg img)
      k u n).2.2.2 ∧
    alookup (run info f sh nows fuels (initState info f dec resolution cfg img)
      k u n).1.cameras cid = none ∧
    alookup (run info f sh nows fuels (initState info f dec resolution cfg img)
      k u n).1.stats cid = none := by
  have hcams : alookup (initState info f dec resolution cfg img).cameras cid = none :=
    probeCameras_excluded info f dec resolution cid hexcl cfg 0
  have hstats : alookup (initState info f dec resolution cfg img).stats cid = none := by
    simp only [initState] at hcams ⊢
    rw [alookup_initStats, hcams]
    rfl
  refine ⟨hcams, hstats, ?_, ?_, ?_⟩
  · intro hmem
    have hlog := run_log info f sh nows fuels
      (initState info f dec resolution cfg img) k u n cid hmem
    rw [hcams] at hlog
    simp at hlog
  · have hk := run_cameras_isSome info f sh nows fuels
      (initState info f dec resolution cfg img) k u n cid
    rw [hcams] at hk
    simp only [Option.isSome_none] at hk
    exact Option.not_isSome_iff_eq_none.mp (by simp [hk])
  · have hk := run_stats_isSome info f sh nows fuels
      (initState info f dec resolution cfg img) k u n cid
    rw [hstats] at hk
    simp only [Option.isSome_none] at hk
    exact Option.not_isSome_iff_eq_none.mp (by simp [hk])

/-- C7 witness: camera 2's probe always fails while camera 1 is admitted; two
cycles later camera 2 was never fetched and still has no record or stats
entry. -/
theorem C7_excluded_never_fetched_witness :
    alookup (initState infoW fC7W decW 1080 [1, 2] []).cameras 2 = none ∧
    alookup (initState infoW fC7W decW 1080 [1, 2] []).stats 2 = none ∧
    2 ∉ (run infoW fC7W shW (fun _ => 8) (fun _ => 1)
      (initState infoW fC7W decW 1080 [1, 2] []) 2 0 2).2.2.2 ∧
    alookup (run infoW fC7W shW (fun _ => 8) (fun _ => 1)
      (initState infoW fC7W decW 1080 [1, 2] []) 2 0 2).1.cameras 2 = none ∧
    alookup (run infoW fC7W shW (fun _ => 8) (fun _ => 1)
      (initState infoW fC7W decW 1080 [1, 2] []) 2 0 2).1.stats 2 = none :=
  C7_excluded_never_fetched infoW fC7W shW decW (fun _ => 8) (fun _ => 1) 1080
    [1, 2] [] 2 2 0 2 (fun _ => rfl)

/-- C9: if, for an expiring camera, the first fetch succeeds with a changed
fingerprint but the confirming re-fetch returns Unavailable, nothing is
committed — the step returns the state unchanged with no `found_one` — and
the scan continues with the remaining members of the shuffled bucket (the two
failed-confirmation fetches are merely prepended to the rest of the pass's
log). -/
theorem C9_failed_confirmation_continues (info : Nat → Option String)
    (f : Nat → Nat → Option Response) (σ : SchedState) (k cid : Nat)
    (cam md : Metadata) (c : List Nat) (rest : List Nat)
    (hcam : alookup σ.cameras cid = some cam)
    (hf1 : request_image info cid (f k cid) = some (md, c))
    (hne : md.etag ≠ cam.etag)
    (hf2 : request_image info cid (f (k + 1) cid) = none) :
    scanStep info f σ k cid = (σ, k + 2, false, [cid, cid]) ∧
    scanPass info f σ k (cid :: rest) =
      ((scanPass info f σ (k + 2) rest).1, (scanPass info f σ (k + 2) rest).2.1,
       (scanPass info f σ (k + 2) rest).2.2.1,
       cid :: cid :: (scanPass info f σ (k + 2) rest).2.2.2) := by
  have hstep : scanStep info f σ k cid = (σ, k + 2, false, [cid, cid]) := by
    simp [scanStep, hcam, hf1, hne, hf2]
  refine ⟨hstep, ?_⟩
  rcases hp : scanPass info f σ (k + 2) rest with ⟨σ2, k2, fd, log⟩
  simp [scanPass, hstep, hp]

/-- C9 witness: the change-detection fetch succeeds, the confirming re-fetch
fails. -/
theorem C9_failed_confirmation_continues_witness :
    scanStep infoW fC9W σW 0 1 = (σW, 2, false, [1, 1]) :=
  (C9_failed_confirmation_continues infoW fC9W σW 0 1 camW mdXW [5] []
    (by decide) (by decide) (by decide) (by decide)).1

/-- C10: from the state right after startup initialization (hub version 0 and
all hit counters 0), at every point between scheduler cycles the hub version
equals the sum of all hit counters — publishes and hit increments happen only
together, one of each per confirmed change — and every hit counter is
monotonically non-decreasing over the run. -/
theorem C10_version_eq_sum_hits (info : Nat → Option String)
    (f : Nat → Nat → Option Response) (sh : Nat → List Nat → List Nat)
    (dec : List Nat → Option Nat) (nows : Nat → Int) (fuels : Nat → Nat)
    (resolution : Nat) (cfg img : List Nat) (k u n : Nat) :
    (initState info f dec resolution cfg img).bcast.image_id = 0 ∧
    sumHits (initState info f dec resolution cfg img).stats = 0 ∧
    sumHits (run info f sh nows fuels (initState info f dec resolution cfg img)
      k u n).1.stats =
      (run info f sh nows fuels (initState info f dec resolution cfg img)
        k u n).1.bcast.image_id ∧
    (∀ c h, alookup (initState info f dec resolution cfg img).stats c = some h →
      ∃ h2, alookup (run info f sh nows fuels
        (initState info f dec resolution cfg img) k u n).1.stats c = some h2 ∧
        h ≤ h2) := by
  have hinv : SchedInv (initState info f dec resolution cfg img) := by
    constructor
    · intro c
      simp only [initState]
      rw [alookup_initStats]
      cases alookup (probeCameras info f dec resolution cfg 0) c <;> simp
    · simp [initState, sumHits_initStats, initBroadcast]
  refine ⟨rfl, sumHits_initStats _, ?_, ?_⟩
  · exact (run_inv info f sh nows fuels _ k u n hinv).2
  · exact run_statsLE info f sh nows fuels _ k u n

/-- C10 witness: one admitted camera, two cycles with unchanged upstream. -/
theorem C10_version_eq_sum_hits_witness :
    ∃ h2, alookup (run infoW fMatchW shW (fun _ => 8) (fun _ => 1)
      (initState infoW fMatchW decW 1080 [1] []) 1 0 2).1.stats 1 = some h2 ∧
      0 ≤ h2 :=
  (C10_version_eq_sum_hits infoW fMatchW shW decW (fun _ => 8) (fun _ => 1)
    1080 [1] [] 1 0 2).2.2.2 1 0 (by decide)


/-- C8: for a camera id resolvable to a source url, every failure class of a
fetch — transport exception (`none` response), non-200 status, missing or
non-JPEG content type, missing ETag header, raw sentinel ETag, or a missing
or unparseable date header — makes `request_image` return `Unavailable`
(`none`); conversely a fetch that does not return `Unavailable` had a 200
status, a JPEG content type, a non-sentinel ETag and all three date headers.
`request_image` is a total function in this embedding: no failure escapes it,
so no fetch failure can terminate the scheduler loop. -/
theorem C8_fetch_failure_unavailable (info : Nat → Option String) (cid : Nat)
    (url : String) (hres : info cid = some url) :
    request_image info cid none = none ∧
    (∀ r : Response, r.status ≠ 200 → request_image info cid (some r) = none) ∧
    (∀ r : Response, r.contentType = none → request_image info cid (some r) = none) ∧
    (∀ r : Response, ∀ ct, r.contentType = some ct → ct ≠ "image/jpeg" →
      request_image info cid (some r) = none) ∧
    (∀ r : Response, r.etag = none → request_image info cid (some r) = none) ∧
    (∀ r : Response, r.etag = some sentinel → request_image info cid (some r) = none) ∧
    (∀ r : Response, r.date = none ∨ r.lastModified = none ∨ r.expires = none →
      request_image info cid (some r) = none) ∧
    (∀ r : Response, ∀ md c, request_image info cid (some r) = some (md, c) →
      r.status = 200 ∧ r.contentType = some "image/jpeg" ∧
      (∃ e, r.etag = some e ∧ e ≠ sentinel ∧ md.etag = stripQuotes e) ∧
      (∃ d, r.date = some d) ∧ (∃ lm, r.lastModified = some lm) ∧
      (∃ ex, r.expires = some ex) ∧ c = r.content) := by
  have hchar : ∀ r : Response, ∀ md c, request_image info cid (some r) = some (md, c) →
      r.status = 200 ∧ r.contentType = some "image/jpeg" ∧
      (∃ e, r.etag = some e ∧ e ≠ sentinel ∧ md.etag = stripQuotes e) ∧
      (∃ d, r.date = some d) ∧ (∃ lm, r.lastModified = some lm) ∧
      (∃ ex, r.expires = some ex) ∧ c = r.content := by
    intro r md c hri
    by_cases hs : r.status = 200
    · cases hct : r.contentType with
      | none =>
        rw [show request_image info cid (some r) = none from by
          simp [request_image, hres, hs, hct]] at hri
        exact Option.noConfusion hri
      | some ct =>
        by_cases hc : ct = "image/jpeg"
        · subst hc
          cases he : r.etag with
          | none =>
            rw [show request_image info cid (some r) = none from by
              simp [request_image, hres, hs, hct, he]] at hri
            exact Option.noConfusion hri
          | some e =>
            by_cases hsen : e = sentinel
            · rw [show request_image info cid (some r) = none from by
                simp [request_image, hres, hs, hct, he, hsen]] at hri
              exact Option.noConfusion hri
            · cases hd : r.date with
              | none =>
                rw [show request_image info cid (some r) = none from by
                  simp [request_image, hres, hs, hct, he, hsen, hd]] at hri
                exact Option.noConfusion hri
              | some d =>
                cases hlm : r.lastModified with
                | none =>
                  rw [show request_image info cid (some r) = none from by
                    simp [request_image, hres, hs, hct, he, hsen, hd, hlm]] at hri
                  exact Option.noConfusion hri
                | some lm =>
                  cases hex : r.expires with
                  | none =>
                    rw [show request_image info cid (some r) = none from by
                      simp [request_image, hres, hs, hct, he, hsen, hd, hlm,
                        hex]] at hri
                    exact Option.noConfusion hri
                  | some ex =>
                    rw [show request_image info cid (some r) =
                        some ({ cam_id := cid, url := url, etag := stripQuotes e,
                                date := d, lastModified := lm, expires := ex },
                              r.content) from by
                      simp [request_image, hres, hs, hct, he, hsen, hd, hlm,
                        hex]] at hri
                    injection hri with h12
                    injection h12 with hmd hc2
                    subst hmd
                    exact ⟨hs, rfl, ⟨e, rfl, hsen, rfl⟩, ⟨d, rfl⟩, ⟨lm, rfl⟩,
                      ⟨ex, rfl⟩, hc2.symm⟩
        · rw [show request_image info cid (some r) = none from by
            simp [request_image, hres, hs, hct, hc]] at hri
          exact Option.noConfusion hri
    · rw [show request_image info cid (some r) = none from by
        simp [request_image, hres, hs]] at hri
      exact Option.noConfusion hri
  refine ⟨by simp [request_image, hres], ?_, ?_, ?_, ?_, ?_, ?_, hchar⟩
  · intro r h
    cases hri : request_image info cid (some r) with
    | none => rfl
    | some p =>
      obtain ⟨md, c⟩ := p
      exact absurd (hchar r md c hri).1 h
  · intro r h
    cases hri : request_image info cid (some r) with
    | none => rfl
    | some p =>
      obtain ⟨md, c⟩ := p
      have := (hchar r md c hri).2.1
      rw [h] at this
      exact Option.noConfusion this
  · intro r ct h hne
    cases hri : request_image info cid (some r) with
    | none => rfl
    | some p =>
      obtain ⟨md, c⟩ := p
      have := (hchar r md c hri).2.1
      rw [h] at this
      exact absurd (Option.some.inj this) hne
  · intro r h
    cases hri : request_image info cid (some r) with
    | none => rfl
    | some p =>
      obtain ⟨md, c⟩ := p
      obtain ⟨e, he, hsen, hmd⟩ := (hchar r md c hri).2.2.1
      rw [h] at he
      exact Option.noConfusion he
  · intro r h
    cases hri : request_image info cid (some r) with
    | none => rfl
    | some p =>
      obtain ⟨md, c⟩ := p
      obtain ⟨e, he, hsen, hmd⟩ := (hchar r md c hri).2.2.1
      rw [h] at he
      exact absurd (Option.some.inj he).symm hsen
  · intro r h
    cases hri : request_image info cid (some r) with
    | none => rfl
    | some p =>
      obtain ⟨md, c⟩ := p
      obtain ⟨hs, hct, het, ⟨d, hd⟩, ⟨lm, hlm⟩, ⟨ex, hex⟩, hc⟩ := hchar r md c hri
      rcases h with h | h | h
      · rw [h] at hd; exact Option.noConfusion hd
      · rw [h] at hlm; exact Option.noConfusion hlm
      · rw [h] at hex; exact Option.noConfusion hex

/-- C8 witness: a transport failure and a 404 response both map to
`Unavailable`. -/
theorem C8_fetch_failure_unavailable_witness :
    request_image infoW 1 none = none ∧
    request_image infoW 1 (some respBadW) = none :=
  ⟨(C8_fetch_failure_unavailable infoW 1 "u" rfl).1,
   (C8_fetch_failure_unavailable infoW 1 "u" rfl).2.1 respBadW (by decide)⟩

end Panopticon
